import Mathlib

/-!
Verification development for the SkyMemo journaling core.

The Python sources are shallowly embedded as executable Lean definitions:
dictionaries become association lists (`List (key × value)`), Python floats
that are only compared (temperatures) become rationals, wall-clock values
(`datetime.now()`) become explicit parameters, and `random.choice` /
`random.shuffle` become explicit oracle parameters.  String formatting of
prompt templates is embedded structurally: the two placeholder tokens of a
template (the weather-description hole and the weather-condition hole)
become dedicated constructors, and every literal fragment is kept verbatim.
-/

set_option maxHeartbeats 1000000

/-- Substring test on character lists: does the first list occur as a prefix
of the second?  Used to embed the Python `in` operator on strings. -/
def charListPrefix : List Char → List Char → Bool
  | [], _ => true
  | _ :: _, [] => false
  | a :: as, b :: bs => a == b && charListPrefix as bs

/-- Substring test on character lists: does the first list occur anywhere
inside the second? -/
def charListSub (n : List Char) : List Char → Bool
  | [] => charListPrefix n []
  | b :: bs => charListPrefix n (b :: bs) || charListSub n bs

/-- Embedding of the Python expression `needle in haystack` on strings. -/
def strContainsSub (haystack needle : String) : Bool :=
  charListSub needle.data haystack.data

/-- Embedding of Python `str.lower` (structural, so that the kernel can
evaluate it; the library version recurses on byte positions). -/
def strToLower (s : String) : String :=
  ⟨s.data.map Char.toLower⟩

/-- One row of `config.WEATHER_MOOD_MAP`. -/
structure MoodInfo where
  primary_mood : String
  secondary_moods : List String
  description : String
deriving DecidableEq

/-- `config.WEATHER_MOOD_MAP`, in the dictionary's insertion order. -/
def WEATHER_MOOD_MAP : List (String × MoodInfo) := [
  ("sunny", ⟨"energetic", ["hopeful", "calm"], "bright and uplifting"⟩),
  ("partly_cloudy", ⟨"calm", ["reflective", "balanced"], "mixed and transitional"⟩),
  ("cloudy", ⟨"reflective", ["calm", "introspective"], "contemplative and soft"⟩),
  ("rainy", ⟨"reflective", ["melancholic", "cozy"], "introspective and cozy"⟩),
  ("stormy", ⟨"intense", ["energetic", "dramatic"], "powerful and dramatic"⟩),
  ("snowy", ⟨"calm", ["peaceful", "quiet"], "serene and hushed"⟩),
  ("foggy", ⟨"mysterious", ["reflective", "uncertain"], "unclear and mysterious"⟩),
  ("windy", ⟨"energetic", ["restless", "dynamic"], "dynamic and changeable"⟩)]

/-- One row of `config.TEMP_MODIFIERS`. -/
structure TempInfo where
  threshold : ℚ
  moods : List String
deriving DecidableEq

/-- `config.TEMP_MODIFIERS`, in the dictionary's insertion order. -/
def TEMP_MODIFIERS : List (String × TempInfo) := [
  ("very_cold", ⟨0, ["cozy", "introspective"]⟩),
  ("cold", ⟨10, ["crisp", "alert"]⟩),
  ("cool", ⟨15, ["comfortable", "balanced"]⟩),
  ("mild", ⟨20, ["pleasant", "calm"]⟩),
  ("warm", ⟨25, ["energetic", "vibrant"]⟩),
  ("hot", ⟨30, ["lazy", "relaxed"]⟩),
  ("very_hot", ⟨35, ["sluggish", "seeking_rest"]⟩)]

/-- `config.WEATHER_KEYWORDS`, in the dictionary's insertion order.  The
iteration order matters to `classify_weather_condition`. -/
def WEATHER_KEYWORDS : List (String × List String) := [
  ("sunny", ["sun", "sunny", "clear", "bright"]),
  ("partly_cloudy", ["partly cloudy", "partly sunny", "scattered clouds"]),
  ("cloudy", ["cloudy", "overcast", "grey", "gray"]),
  ("rainy", ["rain", "rainy", "drizzle", "shower", "precipitation"]),
  ("stormy", ["storm", "thunder", "lightning", "severe"]),
  ("snowy", ["snow", "snowy", "flurries", "blizzard"]),
  ("foggy", ["fog", "foggy", "mist", "misty", "haze"]),
  ("windy", ["wind", "windy", "breezy", "gusty"])]

/-- The eight valid weather conditions (the keys of the weather tables). -/
def validConditions : List String := WEATHER_MOOD_MAP.map Prod.fst

/-- `WeatherHandler.classify_weather_condition`: lower-case the description,
then return the first condition one of whose keywords occurs as a substring;
default to `partly_cloudy`. -/
def classify_weather_condition (description : String) : String :=
  let d := strToLower description
  match WEATHER_KEYWORDS.find? (fun p => p.2.any (fun keyword => strContainsSub d keyword)) with
  | some p => p.1
  | none => "partly_cloudy"

/-- The loop body of `WeatherHandler.classify_temperature`: walk a list of
(category, info) pairs and return the first category whose threshold is at
most the temperature; fall through to `very_cold`. -/
def classifyFrom (temp_celsius : ℚ) : List (String × TempInfo) → String
  | [] => "very_cold"
  | (category, info) :: rest =>
    if info.threshold ≤ temp_celsius then category else classifyFrom temp_celsius rest

/-- The iteration order of `classify_temperature`: `TEMP_MODIFIERS` sorted by
threshold, descending (the Python `sorted(..., reverse=True)`). -/
def tempModifiersByThresholdDesc : List (String × TempInfo) :=
  TEMP_MODIFIERS.insertionSort (fun a b => b.2.threshold ≤ a.2.threshold)

/-- `WeatherHandler.classify_temperature`. -/
def classify_temperature (temp_celsius : ℚ) : String :=
  classifyFrom temp_celsius tempModifiersByThresholdDesc

/-- The threshold configured for a temperature category (0 for unknown
category names; every category returned by `classify_temperature` is known). -/
def thresholdOf (category : String) : ℚ :=
  ((TEMP_MODIFIERS.lookup category).map (fun info => info.threshold)).getD 0

/-- The weather dictionary built by `WeatherHandler.get_weather_manual`.
The `timestamp` field is `datetime.now().isoformat()` in the source and is
passed in as the `now` parameter. -/
structure WeatherData where
  temperature : ℚ
  temperature_category : String
  condition : String
  condition_raw : String
  precipitation : Bool
  timestamp : String
  source : String
deriving DecidableEq

/-- `WeatherHandler.get_weather_manual`: classify both inputs, then apply the
precipitation override (cloudy becomes rainy). -/
def get_weather_manual (temperature : ℚ) (condition : String)
    (precipitation : Bool) (now : String) : WeatherData :=
  let classified_condition := classify_weather_condition condition
  let temp_category := classify_temperature temperature
  let final_condition :=
    if precipitation ∧ classified_condition = "cloudy" then "rainy" else classified_condition
  { temperature := temperature
    temperature_category := temp_category
    condition := final_condition
    condition_raw := condition
    precipitation := precipitation
    timestamp := now
    source := "manual" }

lemma tempModifiersByThresholdDesc_eval :
    tempModifiersByThresholdDesc = [
      ("very_hot", ⟨35, ["sluggish", "seeking_rest"]⟩),
      ("hot", ⟨30, ["lazy", "relaxed"]⟩),
      ("warm", ⟨25, ["energetic", "vibrant"]⟩),
      ("mild", ⟨20, ["pleasant", "calm"]⟩),
      ("cool", ⟨15, ["comfortable", "balanced"]⟩),
      ("cold", ⟨10, ["crisp", "alert"]⟩),
      ("very_cold", ⟨0, ["cozy", "introspective"]⟩)] := by
  decide

lemma classify_temperature_eq (t : ℚ) :
    classify_temperature t =
      if 35 ≤ t then "very_hot"
      else if 30 ≤ t then "hot"
      else if 25 ≤ t then "warm"
      else if 20 ≤ t then "mild"
      else if 15 ≤ t then "cool"
      else if 10 ≤ t then "cold"
      else "very_cold" := by
  unfold classify_temperature
  rw [tempModifiersByThresholdDesc_eval]
  simp only [classifyFrom]
  split_ifs <;> rfl

lemma thresholdOf_classify_temperature (t : ℚ) :
    thresholdOf (classify_temperature t) =
      if 35 ≤ t then (35 : ℚ)
      else if 30 ≤ t then 30
      else if 25 ≤ t then 25
      else if 20 ≤ t then 20
      else if 15 ≤ t then 15
      else if 10 ≤ t then 10
      else 0 := by
  rw [classify_temperature_eq]
  split_ifs <;> decide

/-- C1 counterexample: at temperature 5 the manual weather build classifies
the temperature as `very_cold`, not `cold` as claimed. -/
theorem manual_weather_claim_counterexample :
    (get_weather_manual 5 "overcast" true "2020-01-01T00:00:00").temperature_category ≠ "cold" := by
  decide

/-- C1 (amended): building a manual weather sample with temperature 5,
condition text "overcast" and precipitation true classifies the condition as
`cloudy` and overrides it to `rainy`; the override fires exactly when
precipitation is true and the classified condition is `cloudy`; the
temperature category is `very_cold` (threshold rule: first configured
threshold at most the temperature, scanning descending). -/
theorem manual_weather_build (now : String) :
    (get_weather_manual 5 "overcast" true now).condition = "rainy" ∧
    classify_weather_condition "overcast" = "cloudy" ∧
    (get_weather_manual 5 "overcast" true now).temperature_category = "very_cold" ∧
    (∀ (t : ℚ) (c : String) (p : Bool) (n : String),
      (get_weather_manual t c p n).condition =
        if p ∧ classify_weather_condition c = "cloudy" then "rainy"
        else classify_weather_condition c) := by
  refine ⟨rfl, by decide, rfl, ?_⟩
  intro t c p n
  rfl

/-- C2: `classify_temperature` is monotone in the temperature when categories
are compared through their configured thresholds, and any temperature below
every configured threshold yields `very_cold`. -/
theorem classify_temperature_monotone :
    (∀ t1 t2 : ℚ, t1 ≤ t2 →
      thresholdOf (classify_temperature t1) ≤ thresholdOf (classify_temperature t2)) ∧
    (∀ t : ℚ, (∀ p ∈ TEMP_MODIFIERS, t < p.2.threshold) → classify_temperature t = "very_cold") := by
  constructor
  · intro t1 t2 h
    rw [thresholdOf_classify_temperature, thresholdOf_classify_temperature]
    split_ifs <;> linarith
  · intro t h
    have h0 : t < 0 := h ("very_cold", ⟨0, ["cozy", "introspective"]⟩) (by decide)
    rw [classify_temperature_eq]
    split_ifs <;> first | rfl | linarith

/-- C2 witness: the monotonicity theorem applied at temperatures 3 and 12,
and the fallback applied at temperature -1. -/
theorem classify_temperature_monotone_witness :
    thresholdOf (classify_temperature 3) ≤ thresholdOf (classify_temperature 12) ∧
    classify_temperature (-1) = "very_cold" :=
  ⟨classify_temperature_monotone.1 3 12 (by norm_num),
   classify_temperature_monotone.2 (-1) (by decide)⟩

/-- The subset of the weather dictionary read by `PromptGenerator`
(`weather_data.get` calls; a missing key is `none`). -/
structure WeatherDict where
  condition : Option String
  temperature_category : Option String
  condition_raw : Option String
deriving DecidableEq

/-- The fallback row `self.mood_map['partly_cloudy']` used when a condition
is not in the weather-mood table. -/
def fallbackRow : MoodInfo :=
  (WEATHER_MOOD_MAP.lookup "partly_cloudy").getD ⟨"", [], ""⟩

/-- The mood row for a (possibly missing) condition:
`self.mood_map.get(condition, self.mood_map['partly_cloudy'])` where
`condition = weather_data.get('condition', 'partly_cloudy')`. -/
def mood_info_for (condition : Option String) : MoodInfo :=
  (WEATHER_MOOD_MAP.lookup (condition.getD "partly_cloudy")).getD fallbackRow

/-- The body of the merge loop in `PromptGenerator.determine_moods`: append a
temperature mood only if it is new and differs from the primary mood. -/
def append_temp_mood (primary_mood : String) (acc : List String) (mood : String) : List String :=
  if mood ∉ acc ∧ mood ≠ primary_mood then acc ++ [mood] else acc

/-- The temperature moods:
`self.temp_modifiers.get(temp_category, {}).get('moods', [])` where
`temp_category = weather_data.get('temperature_category', 'mild')`. -/
def temp_moods_for (temperature_category : Option String) : List String :=
  ((TEMP_MODIFIERS.lookup (temperature_category.getD "mild")).map (fun info => info.moods)).getD []

/-- `PromptGenerator.determine_moods`. -/
def determine_moods (weather_data : WeatherDict) : String × List String :=
  let mood_info := mood_info_for weather_data.condition
  let primary_mood := mood_info.primary_mood
  let secondary_moods := mood_info.secondary_moods
  let temp_moods := temp_moods_for weather_data.temperature_category
  (primary_mood, temp_moods.foldl (append_temp_mood primary_mood) secondary_moods)

lemma lookup_mem_values {β : Type} (l : List (String × β)) (k : String) (v : β)
    (h : l.lookup k = some v) : v ∈ l.map Prod.snd := by
  induction l with
  | nil => simp [List.lookup] at h
  | cons p rest ih =>
    obtain ⟨pk, pv⟩ := p
    rw [List.lookup] at h
    by_cases hk : k == pk
    · simp [hk] at h
      simp [h]
    · simp only [List.map_cons, List.mem_cons]
      right
      apply ih
      simpa [hk] using h

lemma mood_map_rows_ok :
    ∀ info ∈ WEATHER_MOOD_MAP.map Prod.snd,
      info.secondary_moods.Nodup ∧ info.primary_mood ∉ info.secondary_moods := by
  decide

lemma mood_info_for_ok (condition : Option String) :
    (mood_info_for condition).secondary_moods.Nodup ∧
    (mood_info_for condition).primary_mood ∉ (mood_info_for condition).secondary_moods := by
  unfold mood_info_for
  cases h : WEATHER_MOOD_MAP.lookup (condition.getD "partly_cloudy") with
  | none => simp only [Option.getD_none]; decide
  | some v =>
    simp only [Option.getD_some]
    exact mood_map_rows_ok v (lookup_mem_values _ _ _ h)

lemma append_temp_mood_invariant (primary : String) (moods : List String) :
    ∀ acc : List String, acc.Nodup → primary ∉ acc →
      (moods.foldl (append_temp_mood primary) acc).Nodup ∧
      primary ∉ moods.foldl (append_temp_mood primary) acc := by
  induction moods with
  | nil => intro acc h1 h2; exact ⟨h1, h2⟩
  | cons m ms ih =>
    intro acc h1 h2
    simp only [List.foldl_cons]
    by_cases hm : m ∉ acc ∧ m ≠ primary
    · rw [append_temp_mood, if_pos hm]
      apply ih
      · simp [List.nodup_append, h1, hm.1]
      · simp only [List.mem_append, List.mem_singleton]
        rintro (h | h)
        · exact h2 h
        · exact hm.2 h.symm
    · rw [append_temp_mood, if_neg hm]
      exact ih acc h1 h2

/-- C3: for every weather dictionary, the mood assignment returned by
`determine_moods` has duplicate-free secondary moods that never contain the
primary mood; the computation is total (unmapped conditions use the
`partly_cloudy` row). -/
theorem determine_moods_wellformed (weather_data : WeatherDict) :
    (determine_moods weather_data).2.Nodup ∧
    (determine_moods weather_data).1 ∉ (determine_moods weather_data).2 := by
  obtain ⟨h1, h2⟩ := mood_info_for_ok weather_data.condition
  simpa [determine_moods] using
    append_temp_mood_invariant (mood_info_for weather_data.condition).primary_mood
      (temp_moods_for weather_data.temperature_category)
      (mood_info_for weather_data.condition).secondary_moods h1 h2

/-- One piece of a prompt template: a literal fragment, the weather_desc
placeholder, or the weather_condition placeholder. -/
inductive TPiece where
  | lit : String → TPiece
  | descPh : TPiece
  | condPh : TPiece
deriving DecidableEq

/-- A prompt template is the sequence of its pieces (the parse of the Python
format string). -/
abbrev Template := List TPiece

/-- Substituting the two placeholders (`str.format` in the source). -/
def renderPiece (weather_desc weather_condition : String) : TPiece → String
  | .lit s => s
  | .descPh => weather_desc
  | .condPh => weather_condition

/-- Render a template by substituting both placeholders. -/
def renderTemplate (t : Template) (weather_desc weather_condition : String) : String :=
  String.join (t.map (renderPiece weather_desc weather_condition))

/-- `config.PROMPT_TEMPLATES`, with each format string parsed into pieces. -/
def PROMPT_TEMPLATES : List (String × List Template) := [
  ("reflective", [
    [.lit "Today\x27s ", .descPh, .lit " weather invites reflection. What emotions are sitting with you right now?"],
    [.lit "The ", .condPh, .lit " outside mirrors inner contemplation. What thoughts have been recurring lately?"],
    [.lit "In this ", .descPh, .lit " moment, what aspects of your life deserve deeper attention?"],
    [.lit "How does today\x27s ", .condPh, .lit " weather influence your perspective on recent events?"],
    [.lit "What would you tell your past self about handling days like this ", .descPh, .lit " one?"]]),
  ("energetic", [
    [.lit "The ", .descPh, .lit " weather sparks energy! What goals are you excited to pursue?"],
    [.lit "This ", .condPh, .lit " day feels full of possibility. What would you do if you couldn\x27t fail?"],
    [.lit "With ", .descPh, .lit " conditions outside, what adventure or project calls to you?"],
    [.lit "The vibrant ", .condPh, .lit " weather energizes action. What\x27s one thing you\x27ll accomplish today?"],
    [.lit "This ", .descPh, .lit " energy is contagious. What brings you alive right now?"]]),
  ("calm", [
    [.lit "The ", .descPh, .lit " atmosphere invites peace. What are you grateful for today?"],
    [.lit "In this ", .condPh, .lit " stillness, what simple pleasures brought you joy?"],
    [.lit "Today\x27s ", .descPh, .lit " weather suggests rest. How can you be kinder to yourself?"],
    [.lit "The gentle ", .condPh, .lit " conditions create space for calm. What does your body need right now?"],
    [.lit "This ", .descPh, .lit " moment is perfect for appreciation. What went well today?"]]),
  ("melancholic", [
    [.lit "The ", .descPh, .lit " weather holds space for sadness. What loss or change are you processing?"],
    [.lit "This ", .condPh, .lit " day allows for gentle grief. What do you need to let go of?"],
    [.lit "In ", .descPh, .lit " weather like this, what memories surface for you?"],
    [.lit "The ", .condPh, .lit " atmosphere validates difficult feelings. What hurts right now?"],
    [.lit "This ", .descPh, .lit " backdrop supports healing. What wisdom has pain taught you?"]]),
  ("hopeful", [
    [.lit "Today\x27s ", .descPh, .lit " weather whispers possibility. What new beginning excites you?"],
    [.lit "The ", .condPh, .lit " conditions feel like a fresh start. What are you hopeful about?"],
    [.lit "This ", .descPh, .lit " day suggests transformation. What positive change do you sense coming?"],
    [.lit "With ", .condPh, .lit " weather like this, what dream feels closer to reality?"],
    [.lit "The ", .descPh, .lit " atmosphere nurtures hope. What future version of yourself can you envision?"]]),
  ("intense", [
    [.lit "Today\x27s ", .descPh, .lit " weather matches inner intensity. What strong emotions need expression?"],
    [.lit "The ", .condPh, .lit " conditions mirror passion. What are you fired up about?"],
    [.lit "This ", .descPh, .lit " energy demands attention. What truth needs to be spoken?"],
    [.lit "The powerful ", .condPh, .lit " weather reflects big feelings. What\x27s demanding to be felt?"],
    [.lit "In this ", .descPh, .lit " intensity, what bold action is calling you?"]]),
  ("cozy", [
    [.lit "The ", .descPh, .lit " weather invites coziness. What comforts are you savoring today?"],
    [.lit "This ", .condPh, .lit " day is perfect for nesting. What makes you feel safe and warm?"],
    [.lit "Today\x27s ", .descPh, .lit " conditions suggest hygge. What small pleasures warmed your heart?"],
    [.lit "The ", .condPh, .lit " weather creates a cocoon. What are you protecting or nurturing?"],
    [.lit "This ", .descPh, .lit " atmosphere invites softness. How can you pamper yourself today?"]]),
  ("balanced", [
    [.lit "Today\x27s ", .descPh, .lit " weather suggests equilibrium. What feels in harmony right now?"],
    [.lit "The ", .condPh, .lit " conditions mirror balance. Where are you finding your center?"],
    [.lit "This ", .descPh, .lit " day invites moderation. What needs right-sizing in your life?"],
    [.lit "The steady ", .condPh, .lit " weather reflects stability. What foundations are you building?"],
    [.lit "In this ", .descPh, .lit " balance, what opposing forces are you integrating?"]])]

/-- Every template of every mood, in table order. -/
def allTemplates : List Template := (PROMPT_TEMPLATES.map Prod.snd).flatten

/-- A generated prompt candidate. -/
structure Candidate where
  mood : String
  text : String
  is_primary : Bool
deriving DecidableEq

/-- Embedding of Python `condition.replace('_', ' ')`. -/
def pyReplaceUnderscore (s : String) : String :=
  ⟨s.data.map (fun c => if c = '_' then ' ' else c)⟩

/-- `random.choice(available_templates)` modelled by an index oracle: any
run of the random generator corresponds to some oracle. -/
def pickTemplate (choice : List Template → Nat) (a : Template) (as : List Template) : Template :=
  (a :: as).get ⟨choice (a :: as) % (a :: as).length, Nat.mod_lt _ (Nat.succ_pos _)⟩

/-- One iteration of the first loop of `PromptGenerator.generate_prompts`:
skip once enough prompts are collected (the `break`), skip moods without
templates, skip moods whose templates are all used, otherwise pick an unused
template, render it and append a candidate. -/
def generate_step (num_prompts : Nat) (weather_desc cond_text primary_mood : String)
    (choice : List Template → Nat) (st : List Candidate × List Template) (mood : String) :
    List Candidate × List Template :=
  if num_prompts ≤ st.1.length then st
  else
    match PROMPT_TEMPLATES.lookup mood with
    | none => st
    | some mood_templates =>
      match mood_templates.filter (fun t => decide (t ∉ st.2)) with
      | [] => st
      | a :: as =>
        let template := pickTemplate choice a as
        (st.1 ++ [⟨mood, renderTemplate template weather_desc cond_text, mood == primary_mood⟩],
         template :: st.2)

/-- The `while` loop of `generate_prompts` that tops up from the primary
mood; each iteration adds exactly one candidate, so `num_prompts` units of
fuel are enough to reach the loop's exit condition. -/
def generate_topup (num_prompts : Nat) (weather_desc cond_text primary_mood : String)
    (choice : List Template → Nat) :
    Nat → List Candidate × List Template → List Candidate × List Template
  | 0, st => st
  | fuel + 1, st =>
    if st.1.length < num_prompts then
      match PROMPT_TEMPLATES.lookup primary_mood with
      | none => st
      | some mood_templates =>
        match mood_templates.filter (fun t => decide (t ∉ st.2)) with
        | [] => st
        | a :: as =>
          let template := pickTemplate choice a as
          generate_topup num_prompts weather_desc cond_text primary_mood choice fuel
            (st.1 ++ [⟨primary_mood, renderTemplate template weather_desc cond_text, true⟩],
             template :: st.2)
    else st

/-- `PromptGenerator.generate_prompts`.  `choice` models `random.choice` and
`shuffle` models `random.shuffle` (the caller supplies the randomness). -/
def generate_prompts (choice : List Template → Nat) (shuffle : List Candidate → List Candidate)
    (weather_data : WeatherDict) (num_prompts : Nat) : List Candidate :=
  let condition := weather_data.condition.getD "partly_cloudy"
  let weather_desc := (mood_info_for weather_data.condition).description
  let cond_text := pyReplaceUnderscore condition
  let pm := determine_moods weather_data
  let all_moods := pm.1 :: pm.2
  let afterWalk :=
    all_moods.foldl (generate_step num_prompts weather_desc cond_text pm.1 choice) ([], [])
  let final := generate_topup num_prompts weather_desc cond_text pm.1 choice num_prompts afterWalk
  shuffle final.1

/-- The opening-brace character of a placeholder token. -/
def lbrace : Char := Char.ofNat 123

/-- The literal placeholder token for the weather description. -/
def placeholderDesc : String := "\x7bweather_desc\x7d"

/-- The literal placeholder token for the weather condition. -/
def placeholderCond : String := "\x7bweather_condition\x7d"

/-- A template piece whose text contains no opening brace. -/
def pieceNoBrace : TPiece → Bool
  | .lit s => decide (lbrace ∉ s.data)
  | .descPh => true
  | .condPh => true

lemma str_data_append (s t : String) : (s ++ t).data = s.data ++ t.data := by
  cases s; cases t; rfl

lemma join_foldl_data (l : List String) :
    ∀ init : String,
      (l.foldl (fun r s => r ++ s) init).data = init.data ++ (l.map String.data).flatten := by
  induction l with
  | nil => intro init; simp
  | cons s rest ih =>
    intro init
    simp only [List.foldl_cons, List.map_cons, List.flatten_cons]
    rw [ih, str_data_append, List.append_assoc]

lemma string_join_data (l : List String) :
    (String.join l).data = (l.map String.data).flatten := by
  unfold String.join
  simpa using join_foldl_data l ""

lemma renderTemplate_data (t : Template) (wd ct : String) :
    (renderTemplate t wd ct).data = ((t.map (renderPiece wd ct)).map String.data).flatten := by
  unfold renderTemplate
  exact string_join_data _

lemma allTemplates_pieces_no_brace :
    ∀ t ∈ allTemplates, ∀ p ∈ t, pieceNoBrace p = true := by
  decide

lemma renderTemplate_no_brace {t : Template} {wd ct : String}
    (ht : ∀ p ∈ t, pieceNoBrace p = true)
    (hwd : lbrace ∉ wd.data) (hct : lbrace ∉ ct.data) :
    lbrace ∉ (renderTemplate t wd ct).data := by
  rw [renderTemplate_data]
  intro hmem
  rw [List.mem_flatten] at hmem
  obtain ⟨l, hl, hcl⟩ := hmem
  rw [List.mem_map] at hl
  obtain ⟨s, hs, rfl⟩ := hl
  rw [List.mem_map] at hs
  obtain ⟨p, hp, rfl⟩ := hs
  cases p with
  | lit s0 => exact of_decide_eq_true (ht _ hp) hcl
  | descPh => exact hwd hcl
  | condPh => exact hct hcl

lemma charListPrefix_subset {n h : List Char} (hp : charListPrefix n h = true) :
    ∀ a ∈ n, a ∈ h := by
  induction n generalizing h with
  | nil => simp
  | cons x xs ih =>
    cases h with
    | nil => simp [charListPrefix] at hp
    | cons y ys =>
      simp only [charListPrefix, Bool.and_eq_true, beq_iff_eq] at hp
      intro a ha
      rcases List.mem_cons.mp ha with rfl | ha
      · simp [hp.1]
      · exact List.mem_cons_of_mem _ (ih hp.2 a ha)

lemma charListSub_subset {n h : List Char} (hs : charListSub n h = true) :
    ∀ a ∈ n, a ∈ h := by
  induction h with
  | nil =>
    cases n with
    | nil => simp
    | cons x xs => simp [charListSub, charListPrefix] at hs
  | cons y ys ih =>
    simp only [charListSub, Bool.or_eq_true] at hs
    rcases hs with hp | hsub
    · exact charListPrefix_subset hp
    · intro a ha
      exact List.mem_cons_of_mem _ (ih hsub a ha)

lemma strContainsSub_eq_false_of_no_brace {s ph : String}
    (hs : lbrace ∉ s.data) (hph : lbrace ∈ ph.data) :
    strContainsSub s ph = false := by
  cases hc : strContainsSub s ph
  · rfl
  · exact absurd (charListSub_subset (by simpa [strContainsSub] using hc) lbrace hph) hs

lemma lookup_templates_sub {mood : String} {ts : List Template}
    (h : PROMPT_TEMPLATES.lookup mood = some ts) : ∀ t ∈ ts, t ∈ allTemplates := by
  intro t ht
  have hv := lookup_mem_values _ _ _ h
  unfold allTemplates
  rw [List.mem_flatten]
  exact ⟨ts, hv, ht⟩

/-- Injectivity of rendering on the template table, for one substitution. -/
def renderInj (wd ct : String) : Prop :=
  ∀ t1 ∈ allTemplates, ∀ t2 ∈ allTemplates,
    renderTemplate t1 wd ct = renderTemplate t2 wd ct → t1 = t2

lemma renderInj_of_nodup {wd ct : String}
    (h : (allTemplates.map (fun t => renderTemplate t wd ct)).Nodup) : renderInj wd ct :=
  fun _ h1 _ h2 he => List.inj_on_of_nodup_map h h1 h2 he

/-- The invariant of the generation loops: at most `num` candidates, pairwise
distinct texts, every candidate text is the rendering of some used template
from the table, and every used template is from the table. -/
def goodState (num : Nat) (wd ct : String) (st : List Candidate × List Template) : Prop :=
  st.1.length ≤ num ∧
  (st.1.map Candidate.text).Nodup ∧
  (∀ p ∈ st.1, ∃ t ∈ st.2, t ∈ allTemplates ∧ p.text = renderTemplate t wd ct) ∧
  (∀ t ∈ st.2, t ∈ allTemplates)

lemma pickTemplate_mem (choice : List Template → Nat) (a : Template) (as : List Template) :
    pickTemplate choice a as ∈ a :: as :=
  List.get_mem _ _ _

lemma goodState_extend {num : Nat} {wd ct : String} {choice : List Template → Nat}
    {st : List Candidate × List Template} {mood : String} {b : Bool}
    {ts : List Template} {a : Template} {as : List Template}
    (hinj : renderInj wd ct)
    (h : goodState num wd ct st) (hlt : st.1.length < num)
    (hl : PROMPT_TEMPLATES.lookup mood = some ts)
    (hf : ts.filter (fun t => decide (t ∉ st.2)) = a :: as) :
    goodState num wd ct
      (st.1 ++ [⟨mood, renderTemplate (pickTemplate choice a as) wd ct, b⟩],
       pickTemplate choice a as :: st.2) := by
  obtain ⟨hlen, hnd, hwit, hsub⟩ := h
  have htm : pickTemplate choice a as ∈ ts.filter (fun t => decide (t ∉ st.2)) := by
    rw [hf]; exact pickTemplate_mem choice a as
  have hmemts : pickTemplate choice a as ∈ ts := (List.mem_filter.mp htm).1
  have hnotused : pickTemplate choice a as ∉ st.2 := by
    have := (List.mem_filter.mp htm).2
    simpa using this
  have hall : pickTemplate choice a as ∈ allTemplates := lookup_templates_sub hl _ hmemts
  refine ⟨?_, ?_, ?_, ?_⟩
  · simp only [List.length_append, List.length_cons, List.length_nil]
    omega
  · rw [List.map_append, List.nodup_append]
    refine ⟨hnd, by simp, ?_⟩
    intro x hx hx'
    simp only [List.map_cons, List.map_nil, List.mem_singleton] at hx'
    subst hx'
    rw [List.mem_map] at hx
    obtain ⟨p, hp, hpt⟩ := hx
    obtain ⟨t', ht', htall', hpt'⟩ := hwit p hp
    have heq : t' = pickTemplate choice a as := by
      apply hinj t' htall' _ hall
      rw [← hpt']
      exact hpt
    exact hnotused (heq ▸ ht')
  · intro p hp
    rcases List.mem_append.mp hp with hp | hp
    · obtain ⟨t', ht', htall', hpt'⟩ := hwit p hp
      exact ⟨t', List.mem_cons_of_mem _ ht', htall', hpt'⟩
    · rw [List.mem_singleton] at hp
      subst hp
      exact ⟨pickTemplate choice a as, List.mem_cons_self _ _, hall, rfl⟩
  · intro t ht
    rcases List.mem_cons.mp ht with rfl | ht
    · exact hall
    · exact hsub t ht

lemma generate_step_good (num : Nat) (wd ct pm : String) (choice : List Template → Nat)
    (hinj : renderInj wd ct) (st : List Candidate × List Template)
    (h : goodState num wd ct st) (mood : String) :
    goodState num wd ct (generate_step num wd ct pm choice st mood) := by
  unfold generate_step
  by_cases hle : num ≤ st.1.length
  · rw [if_pos hle]
    exact h
  · rw [if_neg hle]
    split
    · exact h
    · next ts hl =>
      split
      · exact h
      · next a as hf => exact goodState_extend hinj h (by omega) hl hf

lemma generate_topup_good (num : Nat) (wd ct pm : String) (choice : List Template → Nat)
    (hinj : renderInj wd ct) :
    ∀ (fuel : Nat) (st : List Candidate × List Template), goodState num wd ct st →
      goodState num wd ct (generate_topup num wd ct pm choice fuel st) := by
  intro fuel
  induction fuel with
  | zero => intro st h; exact h
  | succ n ih =>
    intro st h
    unfold generate_topup
    by_cases hlt : st.1.length < num
    · rw [if_pos hlt]
      split
      · exact h
      · next ts hl =>
        split
        · exact h
        · next a as hf => exact ih _ (goodState_extend hinj h hlt hl hf)
    · rw [if_neg hlt]
      exact h

lemma foldl_generate_step_good (num : Nat) (wd ct pm : String) (choice : List Template → Nat)
    (hinj : renderInj wd ct) (moods : List String) :
    ∀ st : List Candidate × List Template, goodState num wd ct st →
      goodState num wd ct (moods.foldl (generate_step num wd ct pm choice) st) := by
  induction moods with
  | nil => intro st h; exact h
  | cons m ms ih =>
    intro st h
    exact ih _ (generate_step_good num wd ct pm choice hinj st h m)

lemma goodState_init (num : Nat) (wd ct : String) : goodState num wd ct ([], []) :=
  ⟨Nat.zero_le _, List.nodup_nil, by simp, by simp⟩

/-- C4: for every weather sample whose condition satisfies the data-model
invariant (a valid condition or absent), every requested count, every random
choice oracle and every shuffle that permutes its input, `generate_prompts`
returns at most the requested number of candidates, no two returned
candidates share the same rendered text, and no candidate text contains an
unresolved placeholder token. -/
theorem generate_prompts_spec (weather_data : WeatherDict) (num_prompts : Nat)
    (choice : List Template → Nat) (shuffle : List Candidate → List Candidate)
    (hvalid : ∀ c, weather_data.condition = some c → c ∈ validConditions)
    (hshuffle : ∀ l : List Candidate, (shuffle l).Perm l) :
    (generate_prompts choice shuffle weather_data num_prompts).length ≤ num_prompts ∧
    ((generate_prompts choice shuffle weather_data num_prompts).map Candidate.text).Nodup ∧
    ∀ p ∈ generate_prompts choice shuffle weather_data num_prompts,
      strContainsSub p.text placeholderDesc = false ∧
      strContainsSub p.text placeholderCond = false := by
  have hkey :
      (allTemplates.map (fun t =>
        renderTemplate t (mood_info_for weather_data.condition).description
          (pyReplaceUnderscore (weather_data.condition.getD "partly_cloudy")))).Nodup ∧
      lbrace ∉ (mood_info_for weather_data.condition).description.data ∧
      lbrace ∉ (pyReplaceUnderscore (weather_data.condition.getD "partly_cloudy")).data := by
    cases hc : weather_data.condition with
    | none => decide
    | some c =>
      have hcv : c ∈ ["sunny", "partly_cloudy", "cloudy", "rainy",
          "stormy", "snowy", "foggy", "windy"] := hvalid c hc
      fin_cases hcv <;> decide
  obtain ⟨hnodup, hbd, hbc⟩ := hkey
  have hinj := renderInj_of_nodup hnodup
  have hgood :=
    generate_topup_good num_prompts
      (mood_info_for weather_data.condition).description
      (pyReplaceUnderscore (weather_data.condition.getD "partly_cloudy"))
      (determine_moods weather_data).1 choice hinj num_prompts _
      (foldl_generate_step_good num_prompts
        (mood_info_for weather_data.condition).description
        (pyReplaceUnderscore (weather_data.condition.getD "partly_cloudy"))
        (determine_moods weather_data).1 choice hinj
        ((determine_moods weather_data).1 :: (determine_moods weather_data).2)
        ([], [])
        (goodState_init num_prompts
          (mood_info_for weather_data.condition).description
          (pyReplaceUnderscore (weather_data.condition.getD "partly_cloudy"))))
  obtain ⟨hlen, hnd, hwit, hsub⟩ := hgood
  have hperm := hshuffle
    (generate_topup num_prompts
      (mood_info_for weather_data.condition).description
      (pyReplaceUnderscore (weather_data.condition.getD "partly_cloudy"))
      (determine_moods weather_data).1 choice num_prompts
      (((determine_moods weather_data).1 :: (determine_moods weather_data).2).foldl
        (generate_step num_prompts
          (mood_info_for weather_data.condition).description
          (pyReplaceUnderscore (weather_data.condition.getD "partly_cloudy"))
          (determine_moods weather_data).1 choice) ([], []))).1
  simp only [generate_prompts]
  refine ⟨?_, ?_, ?_⟩
  · rw [hperm.length_eq]
    exact hlen
  · exact ((hperm.map Candidate.text).nodup_iff).mpr hnd
  · intro p hp
    have hp' := hperm.mem_iff.mp hp
    obtain ⟨t, htu, htall, hpt⟩ := hwit p hp'
    have hnb : lbrace ∉ p.text.data := by
      rw [hpt]
      exact renderTemplate_no_brace (allTemplates_pieces_no_brace t htall) hbd hbc
    exact ⟨strContainsSub_eq_false_of_no_brace hnb (by decide),
           strContainsSub_eq_false_of_no_brace hnb (by decide)⟩

/-- C4 witness: the specification applied to a concrete rainy sample with
count 5, the constantly-first choice oracle and the identity shuffle. -/
theorem generate_prompts_spec_witness :
    (generate_prompts (fun _ => 0) id ⟨some "rainy", some "mild", none⟩ 5).length ≤ 5 ∧
    ((generate_prompts (fun _ => 0) id ⟨some "rainy", some "mild", none⟩ 5).map Candidate.text).Nodup ∧
    ∀ p ∈ generate_prompts (fun _ => 0) id ⟨some "rainy", some "mild", none⟩ 5,
      strContainsSub p.text placeholderDesc = false ∧
      strContainsSub p.text placeholderCond = false :=
  generate_prompts_spec ⟨some "rainy", some "mild", none⟩ 5 (fun _ => 0) id
    (fun c h => by cases Option.some.inj h; decide)
    (fun l => List.Perm.refl l)

/-- The weather subset embedded in a journal entry
(`JournalManager.create_entry`). -/
structure EntryWeather where
  temperature : Option ℚ
  condition : Option String
  condition_raw : Option String
  precipitation : Bool
deriving DecidableEq

/-- A persisted journal entry.  Dates are modelled as integer day numbers
(the source stores ISO date strings, whose lexicographic order and day
arithmetic correspond to integer order and subtraction); `updated_at` is
absent until the entry is first updated. -/
structure Entry where
  id : String
  timestamp : String
  date : Option Int
  weather : EntryWeather
  mood_tags : List String
  prompt : String
  text : String
  word_count : Nat
  updated_at : Option String
deriving DecidableEq

/-- Helper for `pyWordCount`: split a character list at whitespace. -/
def splitWsAux : List Char → List Char → List (List Char)
  | [], acc => [acc.reverse]
  | c :: cs, acc =>
    if c.isWhitespace then acc.reverse :: splitWsAux cs [] else splitWsAux cs (c :: acc)

/-- Embedding of `len(text.split())`: whitespace-delimited token count
(runs of whitespace produce no empty tokens). -/
def pyWordCount (text : String) : Nat :=
  ((splitWsAux text.data []).filter (fun w => !w.isEmpty)).length

/-- `JournalManager.update_entry` on a loaded entry list: update the first
entry with the given id (text, word count, update stamp) and report success.
`now` is `datetime.now().isoformat()` in the source. -/
def update_entry (entries : List Entry) (entry_id updated_text now : String) :
    List Entry × Bool :=
  match entries with
  | [] => ([], false)
  | e :: rest =>
    if e.id = entry_id then
      ({ e with
          text := updated_text
          word_count := pyWordCount updated_text
          updated_at := some now } :: rest, true)
    else
      let r := update_entry rest entry_id updated_text now
      (e :: r.1, r.2)

/-- Python slice `entries[:n]` for an integer bound (negative bounds count
from the end). -/
def pySliceTo (l : List Entry) (n : Int) : List Entry :=
  if 0 ≤ n then l.take n.toNat else l.take (l.length - (-n).toNat)

/-- `JournalManager.get_all_entries`: the limit is applied only when it is
truthy (`if limit:`), so both a missing limit and a zero limit return the
whole list. -/
def get_all_entries (entries : List Entry) (limit : Option Int) : List Entry :=
  match limit with
  | some n => if n ≠ 0 then pySliceTo entries n else entries
  | none => entries

/-- The loop of `JournalManager._calculate_longest_streak`. -/
def calculate_longest_streak_aux (prev : Int) (current_streak max_streak : Nat) :
    List Int → Nat
  | [] => max_streak
  | d :: ds =>
    if d - prev = 1 then
      calculate_longest_streak_aux d (current_streak + 1) (max max_streak (current_streak + 1)) ds
    else
      calculate_longest_streak_aux d 1 max_streak ds

/-- `JournalManager._calculate_longest_streak` over the ascending list of
distinct entry dates. -/
def calculate_longest_streak : List Int → Nat
  | [] => 0
  | d :: ds => calculate_longest_streak_aux d 1 1 ds

/-- The loop of `JournalManager._calculate_current_streak`: walk the dates
from most recent backwards, expecting `today - i` at offset `i`. -/
def calculate_current_streak_aux (today : Int) : Nat → List Int → Nat
  | _, [] => 0
  | i, d :: ds =>
    if d = today - (i : Int) then 1 + calculate_current_streak_aux today (i + 1) ds else 0

/-- `JournalManager._calculate_current_streak` (`today` is
`datetime.now().date()` in the source). -/
def calculate_current_streak (today : Int) (dates : List Int) : Nat :=
  calculate_current_streak_aux today 0 dates.reverse

/-- C5: with distinct dates exactly yesterday, the day before and the day
before that (today absent), the current streak is 0 and the longest streak
is 3; and whenever today is absent from the dates the current streak is 0. -/
theorem streak_scenario_A :
    (∀ today : Int,
      calculate_current_streak today [today - 3, today - 2, today - 1] = 0 ∧
      calculate_longest_streak [today - 3, today - 2, today - 1] = 3) ∧
    (∀ (today : Int) (dates : List Int), today ∉ dates →
      calculate_current_streak today dates = 0) := by
  constructor
  · intro today
    constructor
    · unfold calculate_current_streak
      rw [show [today - 3, today - 2, today - 1].reverse
            = [today - 1, today - 2, today - 3] by simp]
      unfold calculate_current_streak_aux
      rw [if_neg (by omega)]
    · unfold calculate_longest_streak
      unfold calculate_longest_streak_aux
      rw [if_pos (by omega)]
      unfold calculate_longest_streak_aux
      rw [if_pos (by omega)]
      unfold calculate_longest_streak_aux
      decide
  · intro today dates h
    unfold calculate_current_streak
    have h' : today ∉ dates.reverse := by simpa using h
    cases hrev : dates.reverse with
    | nil => rfl
    | cons d ds =>
      unfold calculate_current_streak_aux
      rw [if_neg ?_]
      intro hd
      apply h'
      rw [hrev]
      have : d = today := by omega
      simp [this]

/-- C5 witness: the today-absent rule applied at today = 10 with dates
7, 8, 9. -/
theorem streak_scenario_A_witness : calculate_current_streak 10 [7, 8, 9] = 0 :=
  streak_scenario_A.2 10 [7, 8, 9] (by decide)

/-- The modified version of an entry produced by a successful text update. -/
def updatedVersion (e : Entry) (updated_text now : String) : Entry :=
  { e with
    text := updated_text
    word_count := pyWordCount updated_text
    updated_at := some now }

/-- C8: the text update succeeds exactly when an entry with the id exists; on
failure the list is unchanged; on success the list splits around the first
matching entry, and only that entry changes, and only in its text,
word-count and update-stamp fields. -/
theorem update_entry_spec (entries : List Entry) (entry_id updated_text now : String) :
    ((update_entry entries entry_id updated_text now).2 = true ↔
      ∃ e ∈ entries, e.id = entry_id) ∧
    ((update_entry entries entry_id updated_text now).2 = false →
      (update_entry entries entry_id updated_text now).1 = entries) ∧
    ((update_entry entries entry_id updated_text now).2 = true →
      ∃ pre e post, entries = pre ++ e :: post ∧
        (∀ e2 ∈ pre, e2.id ≠ entry_id) ∧ e.id = entry_id ∧
        (update_entry entries entry_id updated_text now).1 =
          pre ++ updatedVersion e updated_text now :: post) := by
  induction entries with
  | nil =>
    refine ⟨?_, fun _ => rfl, ?_⟩
    · simp [update_entry]
    · intro h
      simp [update_entry] at h
  | cons e rest ih =>
    obtain ⟨ih1, ih2, ih3⟩ := ih
    by_cases he : e.id = entry_id
    · refine ⟨?_, ?_, ?_⟩
      · constructor
        · intro _
          exact ⟨e, List.mem_cons_self _ _, he⟩
        · intro _
          simp [update_entry, if_pos he]
      · simp only [update_entry, if_pos he]
        intro h
        cases h
      · intro _
        refine ⟨[], e, rest, rfl, by simp, he, ?_⟩
        simp only [update_entry, if_pos he, List.nil_append]
        rfl
    · have hres : update_entry (e :: rest) entry_id updated_text now =
          (e :: (update_entry rest entry_id updated_text now).1,
           (update_entry rest entry_id updated_text now).2) := by
        simp [update_entry, he]
      refine ⟨?_, ?_, ?_⟩
      · rw [hres]
        constructor
        · intro h
          obtain ⟨e2, he2, hid⟩ := ih1.mp h
          exact ⟨e2, List.mem_cons_of_mem _ he2, hid⟩
        · rintro ⟨e2, he2, hid⟩
          apply ih1.mpr
          rcases List.mem_cons.mp he2 with rfl | he2
          · exact absurd hid he
          · exact ⟨e2, he2, hid⟩
      · rw [hres]
        intro h
        rw [ih2 h]
      · rw [hres]
        intro h
        obtain ⟨pre, e0, post, hsplit, hpre, hid, hupd⟩ := ih3 h
        refine ⟨e :: pre, e0, post, by rw [List.cons_append, hsplit], ?_, hid, ?_⟩
        · intro e2 h2
          rcases List.mem_cons.mp h2 with rfl | h2
          · exact he
          · exact hpre e2 h2
        · rw [List.cons_append]
          rw [hupd]

/-- A concrete entry used by the evaluation witnesses. -/
def sampleEntry : Entry :=
  ⟨"e1", "2024-01-01T10:00:00", some 0, ⟨some 20, some "sunny", some "clear sky", false⟩,
   ["energetic"], "prompt text", "hello", 1, none⟩

/-- C8 witness: the update specification applied to a one-entry list whose
entry carries the requested id. -/
theorem update_entry_spec_witness :
    ∃ pre e post, ([sampleEntry] : List Entry) = pre ++ e :: post ∧
      (∀ e2 ∈ pre, e2.id ≠ "e1") ∧ e.id = "e1" ∧
      (update_entry [sampleEntry] "e1" "hello brave world" "T2").1 =
        pre ++ updatedVersion e "hello brave world" "T2" :: post :=
  (update_entry_spec [sampleEntry] "e1" "hello brave world" "T2").2.2 (by decide)

/-- C9: a zero limit (falsy in Python) returns the whole list, as does a
missing limit; a positive limit returns exactly the first n entries. -/
theorem get_all_entries_limit (entries : List Entry) :
    get_all_entries entries (some 0) = entries ∧
    get_all_entries entries none = entries ∧
    ∀ n : Int, 0 < n → get_all_entries entries (some n) = entries.take n.toNat := by
  refine ⟨by simp [get_all_entries], rfl, ?_⟩
  intro n hn
  rw [show get_all_entries entries (some n)
        = if n ≠ 0 then pySliceTo entries n else entries from rfl]
  rw [if_pos (by omega)]
  unfold pySliceTo
  rw [if_pos hn.le]

/-- C9 witness: the positive-limit clause applied at limit 1 on a concrete
one-entry list. -/
theorem get_all_entries_limit_witness :
    get_all_entries [sampleEntry] (some 1) = ([sampleEntry] : List Entry).take (1 : Int).toNat :=
  (get_all_entries_limit [sampleEntry]).2.2 1 (by norm_num)

/-- A value in the statistics dictionary returned by
`JournalManager.get_statistics`. -/
inductive StatValue where
  | nat (n : Nat)
  | rat (q : ℚ)
  | str (s : Option String)
  | dist (d : List (String × Nat))
deriving DecidableEq

/-- Increment a counter dictionary (`counts[k] = counts.get(k, 0) + 1`),
preserving insertion order as Python dicts do. -/
def bump : List (String × Nat) → String → List (String × Nat)
  | [], key => [(key, 1)]
  | (k, v) :: rest, key =>
    if key = k then (k, v + 1) :: rest else (k, v) :: bump rest key

/-- `max(counts.items(), key=...)[0]`: the first key of maximal count in
iteration order (Python `max` keeps the first of equal elements). -/
def argmaxFirst : List (String × Nat) → Option String
  | [] => none
  | x :: xs => some ((xs.foldl (fun best p => if best.2 < p.2 then p else best) x).1)

/-- Round to the nearest integer, halves to even (the rounding of Python's
`round`; the source rounds exact small averages, so the binary-float detail
of Python floats is not modelled). -/
def roundHalfEven (q : ℚ) : Int :=
  if q - ⌊q⌋ < 1 / 2 then ⌊q⌋
  else if 1 / 2 < q - ⌊q⌋ then ⌊q⌋ + 1
  else if ⌊q⌋ % 2 = 0 then ⌊q⌋ else ⌊q⌋ + 1

/-- Embedding of `round(x, 1)`. -/
def round1 (q : ℚ) : ℚ := (roundHalfEven (q * 10) : ℚ) / 10

/-- The mood frequency dictionary of `get_statistics` (every tag of every
entry increments its counter). -/
def mood_counts_of (entries : List Entry) : List (String × Nat) :=
  entries.foldl (fun acc e => e.mood_tags.foldl bump acc) []

/-- The weather frequency dictionary of `get_statistics` (only truthy
conditions are counted: a missing or empty condition is skipped). -/
def weather_counts_of (entries : List Entry) : List (String × Nat) :=
  entries.foldl (fun acc e =>
    match e.weather.condition with
    | some c => if c ≠ "" then bump acc c else acc
    | none => acc) []

/-- `sorted(set(e.get('date') for e in entries if e.get('date')))`: the
ascending list of distinct entry dates. -/
def distinct_dates_of (entries : List Entry) : List Int :=
  ((entries.filterMap (fun e => e.date)).dedup).insertionSort (fun a b => a ≤ b)

/-- `JournalManager.get_statistics` (`today` is `datetime.now().date()`).
The returned Python dict is embedded as an association list in literal
order; note that the empty-input snapshot has no distribution fields. -/
def get_statistics (today : Int) (entries : List Entry) : List (String × StatValue) :=
  if entries.isEmpty then
    [("total_entries", .nat 0), ("total_words", .nat 0), ("avg_words_per_entry", .rat 0),
     ("most_common_mood", .str none), ("most_common_weather", .str none),
     ("longest_streak", .nat 0), ("current_streak", .nat 0)]
  else
    let total_entries : Nat := entries.length
    let total_words : Nat := (entries.map (fun e => e.word_count)).sum
    let avg_words : ℚ := if 0 < total_entries then (total_words : ℚ) / (total_entries : ℚ) else 0
    let mood_counts := mood_counts_of entries
    let most_common_mood := argmaxFirst mood_counts
    let weather_counts := weather_counts_of entries
    let most_common_weather := argmaxFirst weather_counts
    let dates := distinct_dates_of entries
    let longest_streak := calculate_longest_streak dates
    let current_streak := calculate_current_streak today dates
    [("total_entries", .nat total_entries), ("total_words", .nat total_words),
     ("avg_words_per_entry", .rat (round1 avg_words)),
     ("most_common_mood", .str most_common_mood),
     ("most_common_weather", .str most_common_weather),
     ("longest_streak", .nat longest_streak),
     ("current_streak", .nat current_streak),
     ("mood_distribution", .dist mood_counts),
     ("weather_distribution", .dist weather_counts)]

/-- C6: statistics over an empty entry collection never fail and return the
zero-valued snapshot (zero counts, null most-common fields, zero streaks). -/
theorem get_statistics_empty (today : Int) :
    get_statistics today [] =
      [("total_entries", .nat 0), ("total_words", .nat 0), ("avg_words_per_entry", .rat 0),
       ("most_common_mood", .str none), ("most_common_weather", .str none),
       ("longest_streak", .nat 0), ("current_streak", .nat 0)] := rfl

/-- C10: the snapshot's field set differs between empty and non-empty input:
the two distribution fields are present exactly when the entry collection is
non-empty. -/
theorem get_statistics_distribution_fields (today : Int) (entries : List Entry) :
    (entries = [] →
      "mood_distribution" ∉ (get_statistics today entries).map Prod.fst ∧
      "weather_distribution" ∉ (get_statistics today entries).map Prod.fst) ∧
    (entries ≠ [] →
      "mood_distribution" ∈ (get_statistics today entries).map Prod.fst ∧
      "weather_distribution" ∈ (get_statistics today entries).map Prod.fst) := by
  constructor
  · rintro rfl
    have hE : get_statistics today [] =
        [("total_entries", .nat 0), ("total_words", .nat 0), ("avg_words_per_entry", .rat 0),
         ("most_common_mood", .str none), ("most_common_weather", .str none),
         ("longest_streak", .nat 0), ("current_streak", .nat 0)] := rfl
    rw [hE]
    decide
  · intro h
    have he : entries.isEmpty = false := by
      cases entries with
      | nil => exact absurd rfl h
      | cons e rest => rfl
    simp [get_statistics, he]

/-- C10 witness: both distribution fields are present for a concrete
one-entry collection. -/
theorem get_statistics_distribution_fields_witness :
    "mood_distribution" ∈ (get_statistics 0 [sampleEntry]).map Prod.fst ∧
    "weather_distribution" ∈ (get_statistics 0 [sampleEntry]).map Prod.fst :=
  (get_statistics_distribution_fields 0 [sampleEntry]).2 (by simp)

/-- Lexicographic order on character lists, as a computable test (Python
string comparison; the library order on `String` agrees with it but its
decision procedure works on byte positions, which the kernel cannot
evaluate). -/
def charListLe : List Char → List Char → Bool
  | [], _ => true
  | _ :: _, [] => false
  | a :: as, b :: bs => if a < b then true else if b < a then false else charListLe as bs

/-- Computable lexicographic comparison of strings. -/
def strLe (a b : String) : Bool := charListLe a.data b.data

lemma charListLe_iff (a : List Char) :
    ∀ b : List Char, charListLe a b = true ↔ ¬ List.Lex (· < ·) b a := by
  induction a with
  | nil =>
    intro b
    simp only [charListLe, true_iff]
    intro h
    cases h
  | cons c cs ih =>
    intro b
    cases b with
    | nil =>
      rw [show charListLe (c :: cs) [] = false from rfl]
      constructor
      · intro h
        exact absurd h (by simp)
      · intro h
        exact ((h List.Lex.nil).elim : False).elim
    | cons d ds =>
      simp only [charListLe]
      by_cases hcd : c < d
      · rw [if_pos hcd]
        simp only [true_iff]
        intro h
        cases h with
        | rel h' => exact absurd hcd (asymm h')
        | cons h' => exact absurd hcd (lt_irrefl _)
      · rw [if_neg hcd]
        by_cases hdc : d < c
        · rw [if_pos hdc]
          simp only [Bool.false_eq_true, false_iff, not_not]
          exact List.Lex.rel hdc
        · rw [if_neg hdc]
          have hed : c = d := le_antisymm (not_lt.mp hdc) (not_lt.mp hcd)
          subst hed
          rw [ih ds]
          constructor
          · intro h hl
            exact h (List.Lex.cons_iff.mp hl)
          · intro h hl
            exact h (List.Lex.cons hl)

lemma strLe_iff (a b : String) : strLe a b = true ↔ a ≤ b := by
  rw [String.le_iff_toList_le]
  have hch : charListLe a.toList b.toList = true ↔
      ¬ List.Lex (· < ·) b.toList a.toList := charListLe_iff _ _
  rw [show strLe a b = charListLe a.toList b.toList from rfl, hch]
  constructor
  · intro h
    rcases lt_trichotomy a.toList b.toList with hl | he | hg
    · exact le_of_lt hl
    · exact le_of_eq he
    · exact absurd hg h
  · intro h hl
    rcases lt_or_eq_of_le h with hlt | heq
    · exact absurd (show b.toList < a.toList from hl) (asymm hlt)
    · rw [heq] at hl
      exact absurd (show b.toList < b.toList from hl) (lt_irrefl _)

/-- The condition used when counting weather-mood pairs:
`entry.get('weather', {}).get('condition', 'unknown')`. -/
def condOrUnknown (e : Entry) : String := (e.weather.condition).getD "unknown"

/-- The dictionary key of `Visualizer.create_weather_mood_correlation`: the
weather condition and the mood joined by an underscore (an f-string in the
source). -/
def pairKey (w m : String) : String := w ++ "_" ++ m

/-- The co-occurrence dictionary `weather_mood_pairs` of
`create_weather_mood_correlation`. -/
def weather_mood_pairs (entries : List Entry) : List (String × Nat) :=
  entries.foldl (fun acc e =>
    e.mood_tags.foldl (fun acc2 m => bump acc2 (pairKey (condOrUnknown e) m)) acc) []

/-- `weather_mood_pairs.get(key, 0)`. -/
def lookupCount (d : List (String × Nat)) (k : String) : Nat :=
  (d.lookup k).getD 0

/-- The rows of the correlation heatmap: the distinct truthy conditions
actually observed, sorted (Python `sorted` on strings). -/
def observedWeathers (entries : List Entry) : List String :=
  (((entries.filterMap (fun e => e.weather.condition)).filter
      (fun c => c ≠ "")).dedup).insertionSort (fun a b => strLe a b = true)

/-- The columns of the correlation heatmap: the distinct moods actually
observed, sorted. -/
def observedMoods (entries : List Entry) : List String :=
  ((entries.foldl (fun acc e => acc ++ e.mood_tags) []).dedup).insertionSort
    (fun a b => strLe a b = true)

/-- The cell matrix of the correlation heatmap (one row per observed
weather, one column per observed mood). -/
def correlationMatrix (entries : List Entry) : List (List Nat) :=
  (observedWeathers entries).map (fun w =>
    (observedMoods entries).map (fun m =>
      lookupCount (weather_mood_pairs entries) (pairKey w m)))

/-- An entry whose weather condition itself contains an underscore. -/
def badEntryA : Entry :=
  ⟨"b1", "t1", none, ⟨none, some "a_b", none, false⟩, ["c"], "", "", 0, none⟩

/-- An entry engineered so that its pair key collides with `badEntryA`. -/
def badEntryB : Entry :=
  ⟨"b2", "t2", none, ⟨none, some "a", none, false⟩, ["b_c"], "", "", 0, none⟩

/-- An entry with a valid condition but a duplicated mood tag. -/
def badEntryC : Entry :=
  ⟨"b3", "t3", none, ⟨none, some "sunny", none, false⟩, ["c", "c"], "", "", 0, none⟩

/-- C7 counterexample: the dictionary key joins condition and mood with an
underscore, so conditions "a_b" with mood "c" and "a" with mood "b_c" share
the key "a_b_c" and the cell at row "a_b", column "c" holds 2 although
exactly one entry has condition "a_b" and carries mood "c" (total of all
cells 4, not 3); moreover a duplicated tag is counted once per occurrence:
one entry with condition "sunny" and tags ["c", "c"] produces cell 2. -/
theorem correlation_grid_counterexample :
    (observedWeathers [badEntryA, badEntryB] = ["a", "a_b"] ∧
     observedMoods [badEntryA, badEntryB] = ["b_c", "c"] ∧
     correlationMatrix [badEntryA, badEntryB] = [[2, 0], [0, 2]] ∧
     ([badEntryA, badEntryB].filter
        (fun e => decide (e.weather.condition = some "a_b" ∧ "c" ∈ e.mood_tags))).length = 1) ∧
    (observedWeathers [badEntryC] = ["sunny"] ∧
     observedMoods [badEntryC] = ["c"] ∧
     correlationMatrix [badEntryC] = [[2]] ∧
     ([badEntryC].filter
        (fun e => decide (e.weather.condition = some "sunny" ∧ "c" ∈ e.mood_tags))).length = 1) := by
  decide

lemma sum_map_add {α : Type} (l : List α) (f g : α → Nat) :
    (l.map (fun x => f x + g x)).sum = (l.map f).sum + (l.map g).sum := by
  induction l with
  | nil => rfl
  | cons x xs ih =>
    simp only [List.map_cons, List.sum_cons, ih]
    omega

lemma sum_if_mem (l : List String) (hnd : l.Nodup) (k : String) (v : Nat) :
    (l.map (fun w => if k = w then v else 0)).sum = if k ∈ l then v else 0 := by
  induction l with
  | nil => simp
  | cons w ws ih =>
    simp only [List.map_cons, List.sum_cons]
    rw [ih hnd.of_cons]
    by_cases hk : k = w
    · subst hk
      rw [if_pos rfl, if_pos (List.mem_cons_self _ _),
          if_neg ((List.nodup_cons.mp hnd).1)]
      omega
    · rw [if_neg hk]
      by_cases hm : k ∈ ws
      · rw [if_pos hm, if_pos (List.mem_cons_of_mem _ hm)]
        omega
      · rw [if_neg hm, if_neg (by simp [hk, hm])]

lemma sum_counts (cols : List String) (hnd : cols.Nodup) :
    ∀ tags : List String, (∀ t ∈ tags, t ∈ cols) →
      (cols.map (fun m => tags.count m)).sum = tags.length := by
  intro tags
  induction tags with
  | nil => intro _; simp
  | cons t ts ih =>
    intro hsub
    have h1 : cols.map (fun m => (t :: ts).count m)
        = cols.map (fun m => ts.count m + if t = m then 1 else 0) := by
      apply List.map_congr_left
      intro m _
      rw [List.count_cons]
      by_cases hm : t = m <;> simp [hm]
    rw [h1, sum_map_add, ih (fun x hx => hsub x (List.mem_cons_of_mem _ hx))]
    rw [sum_if_mem cols hnd t 1, if_pos (hsub t (List.mem_cons_self _ _))]
    simp

lemma sum_map_swap {α β : Type} (A : List α) (B : List β) (f : α → β → Nat) :
    (A.map (fun a => (B.map (f a)).sum)).sum
      = (B.map (fun b => (A.map (fun a => f a b)).sum)).sum := by
  induction A with
  | nil =>
    have hz : ∀ (C : List β),
        (C.map (fun b => (List.map (fun a => f a b) ([] : List α)).sum)).sum = 0 := by
      intro C
      induction C with
      | nil => rfl
      | cons c cs ihc => simpa using ihc
    simp only [List.map_nil, List.sum_nil]
    exact (hz B).symm
  | cons a as ih =>
    simp only [List.map_cons, List.sum_cons, ih]
    rw [← sum_map_add B (f a) (fun b => (as.map (fun a2 => f a2 b)).sum)]

lemma sum_map_ite_filter {α : Type} (l : List α) (p : α → Prop) [DecidablePred p] (g : α → Nat) :
    (l.map (fun x => if p x then g x else 0)).sum
      = ((l.filter (fun x => decide (p x))).map g).sum := by
  induction l with
  | nil => rfl
  | cons x xs ih =>
    simp only [List.map_cons, List.sum_cons, List.filter_cons]
    by_cases hx : p x
    · rw [if_pos hx, if_pos (by simpa using hx)]
      simp only [List.map_cons, List.sum_cons]
      rw [ih]
    · rw [if_neg hx, if_neg (by simpa using hx)]
      rw [ih]
      omega

lemma sum_over_partition (rows : List String) (hnd : rows.Nodup)
    (entries : List Entry) (key : Entry → String) (g : Entry → Nat) :
    (rows.map (fun w => ((entries.filter (fun e => decide (key e = w))).map g).sum)).sum =
      ((entries.filter (fun e => decide (key e ∈ rows))).map g).sum := by
  induction entries with
  | nil =>
    simp only [List.filter_nil, List.map_nil, List.sum_nil]
    induction rows with
    | nil => rfl
    | cons r rs ihr => simpa using ihr (List.Nodup.of_cons hnd)
  | cons e es ih =>
    have hstep : rows.map (fun w => ((List.filter (fun e2 => decide (key e2 = w)) (e :: es)).map g).sum)
        = rows.map (fun w => (if key e = w then g e else 0)
            + ((List.filter (fun e2 => decide (key e2 = w)) es).map g).sum) := by
      apply List.map_congr_left
      intro w _
      by_cases hw : key e = w
      · simp [List.filter_cons, hw]
      · simp [List.filter_cons, hw]
    rw [hstep, sum_map_add, ih, sum_if_mem rows hnd (key e) (g e)]
    by_cases he : key e ∈ rows
    · simp [List.filter_cons, he]
    · simp [List.filter_cons, he]

lemma lookupCount_bump (d : List (String × Nat)) (key k : String) :
    lookupCount (bump d key) k = lookupCount d k + (if k = key then 1 else 0) := by
  induction d with
  | nil =>
    by_cases hk : k = key
    · subst hk
      simp [bump, lookupCount, List.lookup]
    · have hb : (k == key) = false := by simpa using hk
      simp [bump, lookupCount, List.lookup, hb, hk]
  | cons p rest ih =>
    obtain ⟨k0, v⟩ := p
    by_cases hkey : key = k0
    · subst hkey
      by_cases hk : k = key
      · subst hk
        simp [bump, lookupCount, List.lookup]
      · have hb : (k == key) = false := by simpa using hk
        simp [bump, lookupCount, List.lookup, hb, hk]
    · have hbkey : ¬ key = k0 := hkey
      by_cases hk : k = k0
      · subst hk
        have hne : ¬ k = key := by
          intro h
          exact hkey h.symm
        have hb : (k == k) = true := by simp
        simp [bump, lookupCount, List.lookup, hbkey, hne, hb]
      · have hb : (k == k0) = false := by simpa using hk
        simp only [bump, if_neg hbkey]
        simp only [lookupCount, List.lookup, hb]
        exact ih

lemma lookupCount_fold_tags (keyf : String → String) (k : String) (tags : List String) :
    ∀ acc : List (String × Nat),
      lookupCount (tags.foldl (fun a m => bump a (keyf m)) acc) k
        = lookupCount acc k + tags.countP (fun m => decide (k = keyf m)) := by
  induction tags with
  | nil =>
    intro acc
    simp
  | cons t ts ih =>
    intro acc
    rw [List.foldl_cons, ih, lookupCount_bump, List.countP_cons]
    by_cases ht : k = keyf t <;> simp [ht] <;> omega

lemma lookupCount_weather_mood_pairs (entries : List Entry) (k : String) :
    lookupCount (weather_mood_pairs entries) k =
      ((entries.map (fun e =>
        e.mood_tags.countP (fun m => decide (k = pairKey (condOrUnknown e) m)))).sum) := by
  have h : ∀ acc : List (String × Nat),
      lookupCount (entries.foldl (fun acc e =>
        e.mood_tags.foldl (fun a2 m => bump a2 (pairKey (condOrUnknown e) m)) acc) acc) k
        = lookupCount acc k + ((entries.map (fun e =>
            e.mood_tags.countP (fun m => decide (k = pairKey (condOrUnknown e) m)))).sum) := by
    induction entries with
    | nil =>
      intro acc
      simp
    | cons e es ih =>
      intro acc
      rw [List.foldl_cons, ih, lookupCount_fold_tags]
      simp only [List.map_cons, List.sum_cons]
      omega
  have h0 := h []
  simpa [weather_mood_pairs, lookupCount, List.lookup] using h0

lemma append_cons_eq_split (c : Char) :
    ∀ (l1 l2 r1 r2 : List Char), l1 ++ c :: r1 = l2 ++ c :: r2 →
      (l1 = l2 ∧ r1 = r2) ∨ (l1 ++ [c]) <+: l2 ∨ (l2 ++ [c]) <+: l1 := by
  intro l1
  induction l1 with
  | nil =>
    intro l2 r1 r2 h
    cases l2 with
    | nil =>
      simp only [List.nil_append, List.cons.injEq] at h
      exact Or.inl ⟨rfl, h.2⟩
    | cons b bs =>
      simp only [List.nil_append, List.cons_append, List.cons.injEq] at h
      refine Or.inr (Or.inl ?_)
      rw [← h.1]
      exact ⟨bs, rfl⟩
  | cons a as ih =>
    intro l2 r1 r2 h
    cases l2 with
    | nil =>
      simp only [List.cons_append, List.nil_append, List.cons.injEq] at h
      refine Or.inr (Or.inr ?_)
      rw [← h.1]
      exact ⟨as, rfl⟩
    | cons b bs =>
      simp only [List.cons_append, List.cons.injEq] at h
      obtain ⟨hab, htail⟩ := h
      rcases ih bs r1 r2 htail with ⟨he, hr⟩ | hp | hp
      · exact Or.inl ⟨by rw [hab, he], hr⟩
      · refine Or.inr (Or.inl ?_)
        obtain ⟨t, ht⟩ := hp
        refine ⟨t, ?_⟩
        rw [hab]
        simp only [List.cons_append, List.append_assoc] at ht ⊢
        rw [ht]
      · refine Or.inr (Or.inr ?_)
        obtain ⟨t, ht⟩ := hp
        refine ⟨t, ?_⟩
        rw [← hab]
        simp only [List.cons_append, List.append_assoc] at ht ⊢
        rw [ht]

/-- The condition names that can appear as the weather part of a pair key:
the valid conditions plus the `'unknown'` default. -/
def keyConditions : List String := validConditions ++ ["unknown"]

lemma keyConditions_underscore_free :
    ∀ w1 ∈ keyConditions, ∀ w2 ∈ keyConditions,
      w1 = w2 ∨ (¬ (w1.data ++ ['_']) <+: w2.data ∧ ¬ (w2.data ++ ['_']) <+: w1.data) := by
  decide

lemma string_eq_of_data {s t : String} (h : s.data = t.data) : s = t := by
  cases s
  cases t
  exact congrArg String.mk h

lemma pairKey_inj {w1 w2 m1 m2 : String}
    (h1 : w1 ∈ keyConditions) (h2 : w2 ∈ keyConditions)
    (h : pairKey w1 m1 = pairKey w2 m2) : w1 = w2 ∧ m1 = m2 := by
  have hd : w1.data ++ '_' :: m1.data = w2.data ++ '_' :: m2.data := by
    have hq := congrArg String.data h
    simpa [pairKey, str_data_append] using hq
  rcases append_cons_eq_split '_' w1.data w2.data m1.data m2.data hd with ⟨hw, hm⟩ | hp | hp
  · exact ⟨string_eq_of_data hw, string_eq_of_data hm⟩
  · rcases keyConditions_underscore_free w1 h1 w2 h2 with heq | ⟨hn1, _⟩
    · subst heq
      have := hp.length_le
      simp at this
    · exact absurd hp hn1
  · rcases keyConditions_underscore_free w1 h1 w2 h2 with heq | ⟨_, hn2⟩
    · subst heq
      have := hp.length_le
      simp at this
    · exact absurd hp hn2

lemma sortDedup_spec (l : List String) :
    List.Sorted (· ≤ ·) (l.dedup.insertionSort (fun a b => strLe a b = true)) ∧
    (l.dedup.insertionSort (fun a b => strLe a b = true)).Nodup ∧
    ∀ x, x ∈ l.dedup.insertionSort (fun a b => strLe a b = true) ↔ x ∈ l := by
  haveI hT : IsTotal String (fun a b => strLe a b = true) := ⟨fun a b => by
    rw [strLe_iff, strLe_iff]
    exact le_total a b⟩
  haveI hTr : IsTrans String (fun a b => strLe a b = true) := ⟨fun a b c h1 h2 => by
    rw [strLe_iff] at h1 h2 ⊢
    exact le_trans h1 h2⟩
  have hperm := List.perm_insertionSort (fun a b => strLe a b = true) l.dedup
  refine ⟨?_, ?_, ?_⟩
  · have hs := List.sorted_insertionSort (fun a b => strLe a b = true) l.dedup
    exact hs.imp (fun h => (strLe_iff _ _).mp h)
  · exact hperm.nodup_iff.mpr (List.nodup_dedup l)
  · intro x
    rw [hperm.mem_iff, List.mem_dedup]

lemma mem_fold_append (entries : List Entry) :
    ∀ (acc : List String) (m : String),
      m ∈ entries.foldl (fun acc e => acc ++ e.mood_tags) acc ↔
        m ∈ acc ∨ ∃ e ∈ entries, m ∈ e.mood_tags := by
  induction entries with
  | nil =>
    intro acc m
    simp
  | cons e es ih =>
    intro acc m
    rw [List.foldl_cons, ih]
    simp only [List.mem_append, List.mem_cons]
    constructor
    · rintro ((hm | hm) | ⟨e2, he2, hm⟩)
      · exact Or.inl hm
      · exact Or.inr ⟨e, Or.inl rfl, hm⟩
      · exact Or.inr ⟨e2, Or.inr he2, hm⟩
    · rintro (hm | ⟨e2, (rfl | he2), hm⟩)
      · exact Or.inl (Or.inl hm)
      · exact Or.inl (Or.inr hm)
      · exact Or.inr ⟨e2, he2, hm⟩

lemma condOrUnknown_mem_keyConditions {entries : List Entry}
    (hvalid : ∀ e ∈ entries, ∀ c, e.weather.condition = some c → c ∈ validConditions)
    {e : Entry} (he : e ∈ entries) : condOrUnknown e ∈ keyConditions := by
  unfold condOrUnknown
  cases hc : e.weather.condition with
  | none =>
    simp only [Option.getD_none]
    decide
  | some c =>
    simp only [Option.getD_some]
    exact List.mem_append.mpr (Or.inl (hvalid e he c hc))

lemma observedMoods_mem (entries : List Entry) (m : String) :
    m ∈ observedMoods entries ↔ ∃ e ∈ entries, m ∈ e.mood_tags := by
  unfold observedMoods
  rw [(sortDedup_spec _).2.2, mem_fold_append entries [] m]
  simp

lemma correlation_cell (entries : List Entry)
    (hvalid : ∀ e ∈ entries, ∀ c, e.weather.condition = some c → c ∈ validConditions)
    (w m : String) (hw : w ∈ validConditions) :
    lookupCount (weather_mood_pairs entries) (pairKey w m) =
      ((entries.filter (fun e => decide (e.weather.condition = some w))).map
        (fun e => e.mood_tags.count m)).sum := by
  rw [lookupCount_weather_mood_pairs]
  have hwk : w ∈ keyConditions := List.mem_append.mpr (Or.inl hw)
  have hpt : entries.map (fun e => e.mood_tags.countP
        (fun m2 => decide (pairKey w m = pairKey (condOrUnknown e) m2)))
      = entries.map (fun e =>
          if e.weather.condition = some w then e.mood_tags.count m else 0) := by
    apply List.map_congr_left
    intro e he
    have hek := condOrUnknown_mem_keyConditions hvalid he
    by_cases hc : e.weather.condition = some w
    · rw [if_pos hc]
      have hcw : condOrUnknown e = w := by
        rw [condOrUnknown, hc]
        rfl
      rw [hcw]
      have hq : ∀ m2, (decide (pairKey w m = pairKey w m2)) = (m2 == m) := by
        intro m2
        by_cases hm2 : m2 = m
        · subst hm2
          simp
        · have hne : pairKey w m ≠ pairKey w m2 := by
            intro hck
            exact hm2 ((pairKey_inj hwk hwk hck).2.symm)
          simp [hne, hm2]
      rw [List.countP_congr (fun m2 _ => by rw [hq m2]), List.count_eq_countP]
    · rw [if_neg hc]
      have hcw : condOrUnknown e ≠ w := by
        unfold condOrUnknown
        cases hce : e.weather.condition with
        | none =>
          simp only [Option.getD_none]
          intro hu
          rw [← hu] at hw
          exact absurd hw (by decide)
        | some c =>
          simp only [Option.getD_some]
          intro hcw2
          exact hc (by rw [hce, hcw2])
      apply List.countP_eq_zero.mpr
      intro m2 _
      simp only [decide_eq_true_eq]
      intro hck
      exact hcw ((pairKey_inj hwk hek hck).1.symm)
  rw [hpt, sum_map_ite_filter]

lemma condOrUnknown_eq_iff {e : Entry} {w : String} (hw : w ∈ validConditions) :
    condOrUnknown e = w ↔ e.weather.condition = some w := by
  unfold condOrUnknown
  cases hce : e.weather.condition with
  | none =>
    simp only [Option.getD_none]
    constructor
    · intro hu
      rw [← hu] at hw
      exact absurd hw (by decide)
    · intro h
      cases h
  | some c =>
    simp only [Option.getD_some, Option.some.injEq]

/-- The first entry of the correlation example in the claim. -/
def exampleEntryRainy : Entry :=
  ⟨"x1", "t1", none, ⟨none, some "rainy", none, true⟩, ["reflective", "cozy"], "", "", 0, none⟩

/-- The second entry of the correlation example in the claim. -/
def exampleEntrySunny : Entry :=
  ⟨"x2", "t2", none, ⟨none, some "sunny", none, false⟩, ["energetic"], "", "", 0, none⟩

/-- C7 (amended): over any entry list whose conditions respect the
data-model invariant, the grid rows are the distinct observed conditions
sorted lexicographically, the columns the distinct observed moods sorted
lexicographically, each cell counts the (entry, mood-tag occurrence) pairs
with that condition and mood, and the total of all cells is the number of
(entry, mood-tag occurrence) pairs whose condition is among the rows; on
the claim's concrete rainy/sunny example the three expected cells are 1 and
the total is 3. -/
theorem correlation_grid_spec (entries : List Entry)
    (hvalid : ∀ e ∈ entries, ∀ c, e.weather.condition = some c → c ∈ validConditions) :
    List.Sorted (· ≤ ·) (observedWeathers entries) ∧
    (observedWeathers entries).Nodup ∧
    (∀ w, w ∈ observedWeathers entries ↔ ∃ e ∈ entries, e.weather.condition = some w) ∧
    List.Sorted (· ≤ ·) (observedMoods entries) ∧
    (observedMoods entries).Nodup ∧
    (∀ m, m ∈ observedMoods entries ↔ ∃ e ∈ entries, m ∈ e.mood_tags) ∧
    (∀ w ∈ observedWeathers entries, ∀ m ∈ observedMoods entries,
      lookupCount (weather_mood_pairs entries) (pairKey w m) =
        ((entries.filter (fun e => decide (e.weather.condition = some w))).map
          (fun e => e.mood_tags.count m)).sum) ∧
    (((correlationMatrix entries).map List.sum).sum =
      ((entries.filter (fun e => decide (condOrUnknown e ∈ observedWeathers entries))).map
        (fun e => e.mood_tags.length)).sum) ∧
    (observedWeathers [exampleEntryRainy, exampleEntrySunny] = ["rainy", "sunny"] ∧
     observedMoods [exampleEntryRainy, exampleEntrySunny] = ["cozy", "energetic", "reflective"] ∧
     correlationMatrix [exampleEntryRainy, exampleEntrySunny] = [[1, 0, 1], [0, 1, 0]] ∧
     ((correlationMatrix [exampleEntryRainy, exampleEntrySunny]).map List.sum).sum = 3) := by
  have hWiff : ∀ w, w ∈ observedWeathers entries ↔
      (∃ e ∈ entries, e.weather.condition = some w) ∧ w ≠ "" := by
    intro w
    unfold observedWeathers
    rw [(sortDedup_spec _).2.2, List.mem_filter, List.mem_filterMap]
    simp only [decide_eq_true_eq]
  have hw_in_valid : ∀ w ∈ observedWeathers entries, w ∈ validConditions := by
    intro w hw
    obtain ⟨⟨e, he, hc⟩, -⟩ := (hWiff w).mp hw
    exact hvalid e he w hc
  have hrows_nodup : (observedWeathers entries).Nodup := by
    unfold observedWeathers
    exact (sortDedup_spec _).2.1
  have hcols_nodup : (observedMoods entries).Nodup := by
    unfold observedMoods
    exact (sortDedup_spec _).2.1
  refine ⟨?_, hrows_nodup, ?_, ?_, hcols_nodup, observedMoods_mem entries, ?_, ?_, by decide⟩
  · unfold observedWeathers
    exact (sortDedup_spec _).1
  · intro w
    rw [hWiff w]
    constructor
    · exact fun h => h.1
    · intro h
      refine ⟨h, ?_⟩
      obtain ⟨e, he, hc⟩ := h
      have hv := hvalid e he w hc
      intro hemp
      rw [hemp] at hv
      exact absurd hv (by decide)
  · unfold observedMoods
    exact (sortDedup_spec _).1
  · intro w hw m _
    exact correlation_cell entries hvalid w m (hw_in_valid w hw)
  · calc ((correlationMatrix entries).map List.sum).sum
        = ((observedWeathers entries).map (fun w => ((observedMoods entries).map
            (fun m => lookupCount (weather_mood_pairs entries) (pairKey w m))).sum)).sum := by
          unfold correlationMatrix
          rw [List.map_map]
          rfl
      _ = ((observedWeathers entries).map (fun w =>
            ((entries.filter (fun e => decide (e.weather.condition = some w))).map
              (fun e => ((observedMoods entries).map
                (fun m => e.mood_tags.count m)).sum)).sum)).sum := by
          apply congrArg List.sum
          apply List.map_congr_left
          intro w hwmem
          rw [List.map_congr_left
            (fun m _ => correlation_cell entries hvalid w m (hw_in_valid w hwmem))]
          exact sum_map_swap (observedMoods entries)
            (entries.filter (fun e => decide (e.weather.condition = some w)))
            (fun m e => e.mood_tags.count m)
      _ = ((observedWeathers entries).map (fun w =>
            ((entries.filter (fun e => decide (e.weather.condition = some w))).map
              (fun e => e.mood_tags.length)).sum)).sum := by
          apply congrArg List.sum
          apply List.map_congr_left
          intro w _
          apply congrArg List.sum
          apply List.map_congr_left
          intro e hef
          apply sum_counts (observedMoods entries) hcols_nodup e.mood_tags
          intro t ht
          exact (observedMoods_mem entries t).mpr ⟨e, List.mem_of_mem_filter hef, ht⟩
      _ = ((observedWeathers entries).map (fun w =>
            ((entries.filter (fun e => decide (condOrUnknown e = w))).map
              (fun e => e.mood_tags.length)).sum)).sum := by
          apply congrArg List.sum
          apply List.map_congr_left
          intro w hwmem
          have hwv := hw_in_valid w hwmem
          apply congrArg List.sum
          apply congrArg
          apply List.filter_congr
          intro e _
          simp only [decide_eq_decide]
          exact (condOrUnknown_eq_iff hwv).symm
      _ = ((entries.filter (fun e => decide (condOrUnknown e ∈ observedWeathers entries))).map
            (fun e => e.mood_tags.length)).sum :=
          sum_over_partition (observedWeathers entries) hrows_nodup entries condOrUnknown
            (fun e => e.mood_tags.length)

/-- C7 witness: the grand-total clause of the (amended) correlation-grid
specification applied to the claim's concrete rainy/sunny example. -/
theorem correlation_grid_spec_witness :
    ((correlationMatrix [exampleEntryRainy, exampleEntrySunny]).map List.sum).sum =
      (([exampleEntryRainy, exampleEntrySunny].filter (fun e =>
        decide (condOrUnknown e ∈ observedWeathers [exampleEntryRainy, exampleEntrySunny]))).map
          (fun e => e.mood_tags.length)).sum :=
  (correlation_grid_spec [exampleEntryRainy, exampleEntrySunny]
    (by
      intro e he c hc
      rcases List.mem_cons.mp he with rfl | he2
      · cases Option.some.inj hc
        decide
      · rcases List.mem_cons.mp he2 with rfl | he3
        · cases Option.some.inj hc
          decide
        · cases he3)).2.2.2.2.2.2.2.1
